import Mathlib

/-!
Verification of the stateful delta-tracking core of `paper_tracker`.

The Python source is shallowly embedded: dataclasses become structures,
`datetime.now().strftime("%Y-%m-%d")` becomes an explicit `today : String`
parameter, `datetime.now().isoformat()` an explicit `now : String`
parameter, Python dicts keyed by strings become association lists, and the
regex-based content classifiers (declared external capabilities by the
spec) become function-valued parameters bundled in a `DetectEnv`.
Fallible Python code (`ValueError` from enum construction) is embedded
with `Except`.
-/

/-! ## Association-list maps (embedding Python `dict` keyed by `full_name`) -/

def mapLookup (m : List (String × α)) (k : String) : Option α :=
  match m with
  | [] => none
  | p :: rest => if p.1 = k then some p.2 else mapLookup rest k

def mapInsert (m : List (String × α)) (k : String) (v : α) : List (String × α) :=
  if (mapLookup m k).isSome then
    m.map (fun p => if p.1 = k then (k, v) else p)
  else
    m ++ [(k, v)]

/-! ## Date arithmetic

`datetime.strptime(s, "%Y-%m-%d")` and `(datetime.now() - changed).days`
are embedded by parsing the ISO date into a proleptic-Gregorian day
number; `datetime.now()` is represented by the day number of its calendar
date (the time-of-day component never changes `.days` of the difference
with a midnight timestamp in the past-or-same-day direction). -/

def isLeapYear (y : Nat) : Bool :=
  (y % 4 == 0 && y % 100 != 0) || y % 400 == 0

def daysInMonth (y m : Nat) : Nat :=
  if m = 2 then (if isLeapYear y then 29 else 28)
  else if m = 4 ∨ m = 6 ∨ m = 9 ∨ m = 11 then 30
  else 31

def leapCount (n : Nat) : Nat :=
  n / 4 - n / 100 + n / 400

def daysBeforeMonth (y m : Nat) : Nat :=
  (List.range (m - 1)).foldl (fun acc i => acc + daysInMonth y (i + 1)) 0

def dateToDayNumber (y m d : Nat) : Nat :=
  365 * (y - 1) + leapCount (y - 1) + daysBeforeMonth y m + (d - 1)

def splitOnChar (sep : Char) : List Char → List (List Char)
  | [] => [[]]
  | c :: rest =>
    let r := splitOnChar sep rest
    if c = sep then [] :: r
    else
      match r with
      | [] => [[c]]
      | g :: gs => (c :: g) :: gs

def digitsToNat? (cs : List Char) : Option Nat :=
  if cs ≠ [] ∧ cs.all Char.isDigit then
    some (cs.foldl (fun acc c => acc * 10 + (c.toNat - 48)) 0)
  else none

def parseIsoDate (s : String) : Option Int :=
  match splitOnChar (Char.ofNat 45) s.toList with
  | [ys, ms, ds] =>
    match digitsToNat? ys, digitsToNat? ms, digitsToNat? ds with
    | some y, some m, some d =>
      if 1 ≤ m ∧ m ≤ 12 ∧ 1 ≤ d ∧ d ≤ daysInMonth y m then
        some (dateToDayNumber y m d : Int)
      else none
    | _, _, _ => none
  | _ => none

/-! ## `models.py`: `RepoState` and `RepoInfo` -/

inductive RepoState where
  | HAS_WEIGHTS
  | COMING_SOON
  | NO_WEIGHTS
deriving DecidableEq

/-- The `.value` of the Python enum member. -/
def RepoState.value : RepoState → String
  | .HAS_WEIGHTS => "has_weights"
  | .COMING_SOON => "coming_soon"
  | .NO_WEIGHTS => "no_weights"

/-- `RepoState(s)`: enum lookup by value; `none` embeds the `ValueError`. -/
def repoStateOfValue? (s : String) : Option RepoState :=
  if s = "has_weights" then some .HAS_WEIGHTS
  else if s = "coming_soon" then some .COMING_SOON
  else if s = "no_weights" then some .NO_WEIGHTS
  else none

structure RepoInfo where
  name : String
  full_name : String
  stars : Nat
  url : String
  description : String
  created_at : String
  updated_at : String
  status : RepoState := .NO_WEIGHTS
  last_checked : String := ""
  status_changed_date : String := ""
  previous_status : Option RepoState := none
  weight_status : String := "None"
  weight_confidence : String := "none"
  weight_details : List String := []
  conference : Option String := none
  conference_year : Option String := none
  arxiv_id : Option String := none
  conference_details : List String := []
  topics : List String := []
  coming_soon_detected : Bool := false
  coming_soon_details : List String := []
  ru_candidate : Bool := false
deriving DecidableEq

/-- `RepoInfo.__post_init__`: default the dates when unset; `today` stands
for `datetime.now().strftime("%Y-%m-%d")`. -/
def RepoInfo.post_init (r : RepoInfo) (today : String) : RepoInfo :=
  let r := if r.last_checked = "" then { r with last_checked := today } else r
  if r.status_changed_date = "" then { r with status_changed_date := r.last_checked } else r

/-- `RepoInfo.update_status`: update status and track the change. -/
def RepoInfo.update_status (r : RepoInfo) (new_status : RepoState) (today : String) : RepoInfo :=
  let r :=
    if r.status ≠ new_status then
      { r with previous_status := some r.status
               status := new_status
               status_changed_date := today }
    else r
  { r with last_checked := today }

/-- `RepoInfo.is_fresh_release`; `nowDay` is the day number of
`datetime.now()`, and the `try/except` around `strptime` is the `none`
branch of `parseIsoDate`. -/
def RepoInfo.is_fresh_release (r : RepoInfo) (nowDay : Int) (days : Int) : Bool :=
  if r.status ≠ RepoState.HAS_WEIGHTS then false
  else if r.previous_status = none then false
  else
    match parseIsoDate r.status_changed_date with
    | none => false
    | some changed_date => decide (nowDay - changed_date ≤ days)

/-- The dictionary produced by `RepoInfo.to_dict` (all keys present). -/
structure RepoDict where
  name : String
  full_name : String
  stars : Nat
  url : String
  description : String
  created_at : String
  updated_at : String
  status : String
  last_checked : String
  status_changed_date : String
  previous_status : Option String
  weight_status : String
  weight_confidence : String
  weight_details : List String
  conference : Option String
  conference_year : Option String
  arxiv_id : Option String
  conference_details : List String
  topics : List String
  coming_soon_detected : Bool
  coming_soon_details : List String
  ru_candidate : Bool
deriving DecidableEq

/-- `RepoInfo.to_dict`. -/
def RepoInfo.to_dict (r : RepoInfo) : RepoDict :=
  { name := r.name
    full_name := r.full_name
    stars := r.stars
    url := r.url
    description := r.description
    created_at := r.created_at
    updated_at := r.updated_at
    status := r.status.value
    last_checked := r.last_checked
    status_changed_date := r.status_changed_date
    previous_status := r.previous_status.map RepoState.value
    weight_status := r.weight_status
    weight_confidence := r.weight_confidence
    weight_details := r.weight_details
    conference := r.conference
    conference_year := r.conference_year
    arxiv_id := r.arxiv_id
    conference_details := r.conference_details
    topics := r.topics
    coming_soon_detected := r.coming_soon_detected
    coming_soon_details := r.coming_soon_details
    ru_candidate := r.ru_candidate }

/-- `RepoInfo.from_dict`; an `Except.error` carries the string whose
`RepoState(...)` construction raised `ValueError`.  Construction runs
`__post_init__`, hence the `today` parameter. -/
def RepoInfo.from_dict (d : RepoDict) (today : String) : Except String RepoInfo :=
  let statusE : Except String RepoState :=
    if d.status ≠ "" then
      match repoStateOfValue? d.status with
      | some st => .ok st
      | none => .error d.status
    else .ok .NO_WEIGHTS
  match statusE with
  | .error e => .error e
  | .ok status =>
    let prevE : Except String (Option RepoState) :=
      match d.previous_status with
      | some p =>
        if p ≠ "" then
          match repoStateOfValue? p with
          | some st => .ok (some st)
          | none => .error p
        else .ok none
      | none => .ok none
    match prevE with
    | .error e => .error e
    | .ok previous_status =>
      .ok (RepoInfo.post_init
        { name := d.name
          full_name := d.full_name
          stars := d.stars
          url := d.url
          description := d.description
          created_at := d.created_at
          updated_at := d.updated_at
          status := status
          last_checked := d.last_checked
          status_changed_date := d.status_changed_date
          previous_status := previous_status
          weight_status := d.weight_status
          weight_confidence := d.weight_confidence
          weight_details := d.weight_details
          conference := d.conference
          conference_year := d.conference_year
          arxiv_id := d.arxiv_id
          conference_details := d.conference_details
          topics := d.topics
          coming_soon_detected := d.coming_soon_detected
          coming_soon_details := d.coming_soon_details
          ru_candidate := d.ru_candidate } today)


/-! ## `tracker.py`: `RUCandidate` and `RUQueueManager` -/

structure RUCandidate where
  url : String
  full_name : String
  arxiv_id : String
  added_at : String
  source : String
  status : String
  notes : String := ""
deriving DecidableEq

/-- The queue's `candidates` dict, keyed by `full_name`. -/
abbrev RUQueue := List (String × RUCandidate)

/-- Python truthiness of `repo_info.arxiv_id` (an `Optional[str]`). -/
def optStrTruthy : Option String → Bool
  | none => false
  | some s => s ≠ ""

/-- `RUQueueManager.should_queue`. -/
def RUQueueManager.should_queue (q : RUQueue) (repo_info : RepoInfo) : Bool :=
  if repo_info.status ≠ RepoState.HAS_WEIGHTS then false
  else if ¬ optStrTruthy repo_info.arxiv_id then false
  else
    match mapLookup q repo_info.full_name with
    | some existing => ¬ (existing.status = "completed" ∨ existing.status = "processing")
    | none => true

structure AddCandidateResult where
  queue : RUQueue
  repo : RepoInfo
  added : Bool
deriving DecidableEq

/-- `RUQueueManager.add_candidate`; `now` stands for
`datetime.now().isoformat()`. -/
def RUQueueManager.add_candidate (q : RUQueue) (repo_info : RepoInfo)
    (source : String) (now : String) : AddCandidateResult :=
  if source = "auto" ∧ ¬ RUQueueManager.should_queue q repo_info then
    ⟨q, repo_info, false⟩
  else if source = "manual" ∧ repo_info.status ≠ RepoState.HAS_WEIGHTS then
    ⟨q, repo_info, false⟩
  else
    match mapLookup q repo_info.full_name with
    | some _ => ⟨q, repo_info, false⟩
    | none =>
      let candidate : RUCandidate :=
        { url := repo_info.url
          full_name := repo_info.full_name
          arxiv_id := repo_info.arxiv_id.getD ""
          added_at := now
          source := source
          status := "pending" }
      ⟨mapInsert q repo_info.full_name candidate,
       { repo_info with ru_candidate := true }, true⟩

/-- `RUQueueManager.update_status`. -/
def RUQueueManager.update_status (q : RUQueue) (full_name status notes : String) : RUQueue :=
  if (mapLookup q full_name).isSome then
    q.map (fun p =>
      if p.1 = full_name then
        (p.1, { p.2 with status := status
                         notes := if notes ≠ "" then notes else p.2.notes })
      else p)
  else q

def freshSampleRepo : RepoInfo :=
  { name := "r", full_name := "u/r", stars := 5, url := "https://x", description := "d",
    created_at := "2024-01-01", updated_at := "2024-01-08",
    status := .HAS_WEIGHTS, last_checked := "2024-01-08",
    status_changed_date := "2024-01-01", previous_status := some .COMING_SOON }



def sampleCandidate : RUCandidate :=
  { url := "https://x", full_name := "u/r", arxiv_id := "1111.2222",
    added_at := "t0", source := "auto", status := "pending", notes := "old" }

def sampleQueue : RUQueue := [("u/r", sampleCandidate)]

def sampleEligibleRepo : RepoInfo :=
  { name := "r", full_name := "u/r", stars := 5, url := "https://x", description := "d",
    created_at := "2024-01-01", updated_at := "2024-01-08",
    status := .HAS_WEIGHTS, last_checked := "2024-01-08",
    status_changed_date := "2024-01-01", previous_status := some .COMING_SOON,
    arxiv_id := some "1111.2222" }


/-! ## `detectors.py`: classifier result types and the relevance filter -/

structure WeightDetectionResult where
  status : String
  confidence : String
  details : List String := []
deriving DecidableEq

structure ConferenceDetectionResult where
  conference : Option String
  year : Option String
  arxiv_id : Option String
  details : List String := []
deriving DecidableEq

structure ComingSoonResult where
  detected : Bool
  details : List String := []
deriving DecidableEq

/-- The fields of a GitHub search-result dict that the tracker reads. -/
structure RepoData where
  full_name : String
  name : String
  description : Option String
  topics : List String
  stargazers_count : Option Nat
  html_url : String
  created_at : String
  updated_at : String
deriving DecidableEq

/-- Python `pat in hay` on character lists. -/
def charsContains : List Char → List Char → Bool
  | [], pat => pat.isEmpty
  | c :: t, pat => pat.isPrefixOf (c :: t) || charsContains t pat

/-- Python `pat in hay` for strings. -/
def strContains (hay pat : String) : Bool :=
  charsContains hay.toList pat.toList

/-- Python `s.lower()` (ASCII, as used by the keyword lists). -/
def strLower (s : String) : String :=
  String.mk (s.toList.map Char.toLower)

/-- Python `s.startswith(pre)`. -/
def strStartsWith (s pre : String) : Bool :=
  pre.toList.isPrefixOf s.toList

/-- Python slicing `s[:n]`. -/
def strTakeChars (s : String) (n : Nat) : String :=
  String.mk (s.toList.take n)

/-- `RelevanceFilter`: the four keyword lists hold the lower-cased
configuration loaded by `_load_keywords`. -/
structure RelevanceFilter where
  strong_keywords : List String
  weak_keywords : List String
  exclude_keywords : List String
  exclude_name_terms : List String
deriving DecidableEq

/-- `RelevanceFilter.is_relevant`. -/
def RelevanceFilter.is_relevant (f : RelevanceFilter) (repo : RepoData) : Bool :=
  let name := strLower repo.name
  let description := strLower (repo.description.getD "")
  let topics := repo.topics.map strLower
  let text := name ++ " " ++ description ++ " " ++ String.intercalate " " topics
  if f.exclude_keywords.any (fun keyword => strContains text keyword) then false
  else if f.strong_keywords.any (fun keyword => strContains text keyword) then true
  else
    let has_image_context :=
      ["image", "photo", "picture", "visual"].any (fun ctx => strContains text ctx)
    if has_image_context && f.weak_keywords.any (fun keyword => strContains text keyword) then
      true
    else false

/-- `RelevanceFilter.is_excluded`. -/
def RelevanceFilter.is_excluded (f : RelevanceFilter) (repo : RepoData) : Bool :=
  let name := strLower repo.name
  let description := strLower (repo.description.getD "")
  f.exclude_name_terms.any (fun term =>
    strContains name term ||
    strStartsWith description term ||
    strContains (strTakeChars description 50) ("a " ++ term))

/-! ## `tracker.py`: the reconciliation engine

The HTTP client and the three regex classifiers are external capabilities
(spec section 2); they are embedded as function-valued parameters.
`get_readme` is keyed directly by `full_name` (the source splits it into
`owner, name` purely to form the API path). -/

structure DetectEnv where
  get_readme : String → String
  weight_detect : String → WeightDetectionResult
  conference_detect : String → String → ConferenceDetectionResult
  coming_soon_detect : String → ComingSoonResult
  search_repos : String → Nat → String → Nat → String → List RepoData

/-- The mutable state of a `PaperTracker`. -/
structure TrackerState where
  repos : List (String × RepoInfo)
  ru_queue : RUQueue
  fresh_releases : List String := []
  new_repos : List String := []
  watchlist_updates : List String := []
deriving DecidableEq

/-- `RepoInfo.from_github_repo` (construction runs `__post_init__`). -/
def RepoInfo.from_github_repo (repo : RepoData) (today : String) : RepoInfo :=
  RepoInfo.post_init
    { name := repo.name
      full_name := repo.full_name
      stars := repo.stargazers_count.getD 0
      url := repo.html_url
      description := strTakeChars (repo.description.getD "") 150
      created_at := strTakeChars repo.created_at 10
      updated_at := strTakeChars repo.updated_at 10
      topics := repo.topics } today

/-- `PaperTracker._update_repo_detection`, with the queue side effect. -/
def PaperTracker.update_repo_detection (env : DetectEnv) (repo_info : RepoInfo)
    (readme : String) (q : RUQueue) (today now : String) : RepoInfo × RUQueue :=
  let weight_result := env.weight_detect readme
  let repo_info := { repo_info with
    weight_status := weight_result.status
    weight_confidence := weight_result.confidence
    weight_details := weight_result.details }
  let conf_result := env.conference_detect readme repo_info.description
  let repo_info := { repo_info with
    conference := conf_result.conference
    conference_year := conf_result.year
    arxiv_id := conf_result.arxiv_id
    conference_details := conf_result.details }
  let coming_soon_result := env.coming_soon_detect readme
  let repo_info := { repo_info with
    coming_soon_detected := coming_soon_result.detected
    coming_soon_details := coming_soon_result.details }
  let new_status :=
    if weight_result.status ≠ "None" then RepoState.HAS_WEIGHTS
    else if coming_soon_result.detected then RepoState.COMING_SOON
    else RepoState.NO_WEIGHTS
  let repo_info := repo_info.update_status new_status today
  if RUQueueManager.should_queue q repo_info then
    let res := RUQueueManager.add_candidate q repo_info "auto" now
    (res.repo, res.queue)
  else (repo_info, q)

/-- `PaperTracker._process_repo_with_delta`. -/
def PaperTracker.process_repo_with_delta (env : DetectEnv) (f : RelevanceFilter)
    (st : TrackerState) (repo_data : RepoData) (today now : String) : TrackerState :=
  let full_name := repo_data.full_name
  if f.is_excluded repo_data then st
  else if ¬ f.is_relevant repo_data then st
  else
    match mapLookup st.repos full_name with
    | some existing =>
      let existing := { existing with
        stars := repo_data.stargazers_count.getD existing.stars
        updated_at := strTakeChars repo_data.updated_at 10 }
      if existing.status = RepoState.HAS_WEIGHTS then
        let readme := env.get_readme full_name
        let conf_result := env.conference_detect readme existing.description
        let existing := { existing with
          conference := conf_result.conference
          conference_year := conf_result.year
          arxiv_id := conf_result.arxiv_id
          conference_details := conf_result.details
          last_checked := today }
        let qr :=
          if RUQueueManager.should_queue st.ru_queue existing then
            let res := RUQueueManager.add_candidate st.ru_queue existing "auto" now
            (res.queue, res.repo)
          else (st.ru_queue, existing)
        { st with repos := mapInsert st.repos full_name qr.2, ru_queue := qr.1 }
      else if existing.status = RepoState.COMING_SOON then
        let readme := env.get_readme full_name
        let rq := PaperTracker.update_repo_detection env existing readme st.ru_queue today now
        let st2 := { st with repos := mapInsert st.repos full_name rq.1, ru_queue := rq.2 }
        if rq.1.status = RepoState.HAS_WEIGHTS then
          { st2 with
            fresh_releases := st2.fresh_releases ++ [full_name]
            watchlist_updates := st2.watchlist_updates ++ [full_name] }
        else st2
      else
        let readme := env.get_readme full_name
        let rq := PaperTracker.update_repo_detection env existing readme st.ru_queue today now
        { st with repos := mapInsert st.repos full_name rq.1, ru_queue := rq.2 }
    | none =>
      let repo_info := RepoInfo.from_github_repo repo_data today
      let readme := env.get_readme full_name
      let rq := PaperTracker.update_repo_detection env repo_info readme st.ru_queue today now
      { st with
        repos := mapInsert st.repos full_name rq.1
        ru_queue := rq.2
        new_repos := st.new_repos ++ [full_name] }

/-- The body of `_process_repo_with_delta` after the relevance gate; it
takes no `RelevanceFilter` at all. -/
def PaperTracker.process_gated (env : DetectEnv) (st : TrackerState)
    (repo_data : RepoData) (today now : String) : TrackerState :=
  let full_name := repo_data.full_name
  match mapLookup st.repos full_name with
  | some existing =>
    let existing := { existing with
      stars := repo_data.stargazers_count.getD existing.stars
      updated_at := strTakeChars repo_data.updated_at 10 }
    if existing.status = RepoState.HAS_WEIGHTS then
      let readme := env.get_readme full_name
      let conf_result := env.conference_detect readme existing.description
      let existing := { existing with
        conference := conf_result.conference
        conference_year := conf_result.year
        arxiv_id := conf_result.arxiv_id
        conference_details := conf_result.details
        last_checked := today }
      let qr :=
        if RUQueueManager.should_queue st.ru_queue existing then
          let res := RUQueueManager.add_candidate st.ru_queue existing "auto" now
          (res.queue, res.repo)
        else (st.ru_queue, existing)
      { st with repos := mapInsert st.repos full_name qr.2, ru_queue := qr.1 }
    else if existing.status = RepoState.COMING_SOON then
      let readme := env.get_readme full_name
      let rq := PaperTracker.update_repo_detection env existing readme st.ru_queue today now
      let st2 := { st with repos := mapInsert st.repos full_name rq.1, ru_queue := rq.2 }
      if rq.1.status = RepoState.HAS_WEIGHTS then
        { st2 with
          fresh_releases := st2.fresh_releases ++ [full_name]
          watchlist_updates := st2.watchlist_updates ++ [full_name] }
      else st2
    else
      let readme := env.get_readme full_name
      let rq := PaperTracker.update_repo_detection env existing readme st.ru_queue today now
      { st with repos := mapInsert st.repos full_name rq.1, ru_queue := rq.2 }
  | none =>
    let repo_info := RepoInfo.from_github_repo repo_data today
    let readme := env.get_readme full_name
    let rq := PaperTracker.update_repo_detection env repo_info readme st.ru_queue today now
    { st with
      repos := mapInsert st.repos full_name rq.1
      ru_queue := rq.2
      new_repos := st.new_repos ++ [full_name] }

/-- The per-result loop of `PaperTracker.search`, instrumented with the
run-scoped seen-set and the trace of `full_name`s for which the delta
logic is invoked. -/
def PaperTracker.search_process_results (env : DetectEnv) (f : RelevanceFilter)
    (today now : String) :
    TrackerState → List String → List String → List RepoData →
      TrackerState × List String × List String
  | st, seen, trace, [] => (st, seen, trace)
  | st, seen, trace, d :: rest =>
    let full_name := d.full_name
    if full_name = "" ∨ full_name ∈ seen then
      PaperTracker.search_process_results env f today now st seen trace rest
    else
      PaperTracker.search_process_results env f today now
        (PaperTracker.process_repo_with_delta env f st d today now)
        (seen ++ [full_name]) (trace ++ [full_name]) rest

/-- The per-query loop of `PaperTracker.search` (two passes per query). -/
def PaperTracker.search_queries (env : DetectEnv) (f : RelevanceFilter)
    (min_stars : Nat) (max_results : Nat) (year_filter : String) (today now : String) :
    TrackerState → List String → List String → List String →
      TrackerState × List String × List String
  | st, seen, trace, [] => (st, seen, trace)
  | st, seen, trace, query :: rest =>
    let stars_results :=
      env.search_repos query min_stars (year_filter ++ "-01-01") max_results "stars"
    let updated_results :=
      env.search_repos query min_stars (year_filter ++ "-01-01") max_results "updated"
    let all_results := stars_results ++ updated_results
    let out := PaperTracker.search_process_results env f today now st seen trace all_results
    PaperTracker.search_queries env f min_stars max_results year_filter today now
      out.1 out.2.1 out.2.2 rest

/-- `PaperTracker.search`: resets the per-run lists, runs the two-pass
loop per query with a run-scoped seen-set; also returns the trace of
processed `full_name`s. -/
def PaperTracker.search (env : DetectEnv) (f : RelevanceFilter) (st : TrackerState)
    (queries : List String) (min_stars : Nat) (max_results : Nat) (year_filter : String)
    (today now : String) : TrackerState × List String :=
  let st := { st with fresh_releases := [], new_repos := [], watchlist_updates := [] }
  let out := PaperTracker.search_queries env f min_stars max_results year_filter today now
    st [] [] queries
  (out.1, out.2.2)

/-! ## `tracker.py`: `load_history` -/

structure HistoryData where
  repos : List RepoDict
deriving DecidableEq

/-- A history file: absent, unparseable JSON, or parsed content. -/
inductive HistoryFile where
  | missing
  | malformed_json
  | parsed (data : HistoryData)

/-- The `for repo_data in data.get("repos", [])` loop: on a `ValueError`
from `RepoInfo.from_dict` the loop stops with the records loaded so far
and the error propagates. -/
def PaperTracker.load_repos_loop (today : String) :
    List RepoDict → List (String × RepoInfo) →
      List (String × RepoInfo) × Option String
  | [], acc => (acc, none)
  | d :: rest, acc =>
    match RepoInfo.from_dict d today with
    | .error e => (acc, some e)
    | .ok r => PaperTracker.load_repos_loop today rest (mapInsert acc r.full_name r)

/-- The post-load sweep auto-populating the RU queue. -/
def PaperTracker.queue_sweep (now : String) :
    List (String × RepoInfo) → RUQueue → List (String × RepoInfo) × RUQueue
  | [], q => ([], q)
  | (k, r) :: rest, q =>
    if RUQueueManager.should_queue q r then
      let res := RUQueueManager.add_candidate q r "auto" now
      let out := PaperTracker.queue_sweep now rest res.queue
      ((k, res.repo) :: out.1, out.2)
    else
      let out := PaperTracker.queue_sweep now rest q
      ((k, r) :: out.1, out.2)

/-- `PaperTracker.load_history`: `Except.error` is an exception escaping
to the caller (only `json.JSONDecodeError` and `KeyError` are caught by
the source, embedded by the `malformed_json` branch). -/
def PaperTracker.load_history (file : HistoryFile) (st : TrackerState)
    (today now : String) : TrackerState × Except String Bool :=
  match file with
  | .missing => (st, .ok false)
  | .malformed_json => (st, .ok false)
  | .parsed data =>
    let out := PaperTracker.load_repos_loop today data.repos st.repos
    match out.2 with
    | some e => ({ st with repos := out.1 }, .error e)
    | none =>
      let swept := PaperTracker.queue_sweep now out.1 st.ru_queue
      ({ st with repos := swept.1, ru_queue := swept.2 }, .ok true)

/-- First-occurrence deduplication of a name list by a seen-set, dropping
empty names: the pure shape of the search trace. -/
def searchTraceNames (seen : List String) : List String → List String
  | [] => []
  | n :: rest =>
    if n = "" ∨ n ∈ seen then searchTraceNames seen rest
    else n :: searchTraceNames (seen ++ [n]) rest


/-! ## Concrete sample data for witnesses and counterexamples -/

def emptyEnv : DetectEnv :=
  { get_readme := fun _ => ""
    weight_detect := fun _ => { status := "None", confidence := "none" }
    conference_detect := fun _ _ => { conference := none, year := none, arxiv_id := none }
    coming_soon_detect := fun _ => { detected := false }
    search_repos := fun _ _ _ _ _ => [] }

def nullFilter : RelevanceFilter :=
  { strong_keywords := [], weak_keywords := [], exclude_keywords := [], exclude_name_terms := [] }

def passFilter : RelevanceFilter :=
  { strong_keywords := ["super"], weak_keywords := [], exclude_keywords := [],
    exclude_name_terms := [] }

def sampleRepoData : RepoData :=
  { full_name := "u/r", name := "super-res", description := some "d", topics := [],
    stargazers_count := some 7, html_url := "https://x", created_at := "2024-01-01",
    updated_at := "2024-06-02T10:00:00Z" }

def sampleStableState : TrackerState :=
  { repos := [("u/r", sampleEligibleRepo)], ru_queue := [] }


/-- The record produced by delta Case A for an existing `HAS_WEIGHTS`
record `r`: metrics refreshed, venue classifier re-run, `last_checked`
set; weight and promise fields untouched. -/
def caseARefreshed (env : DetectEnv) (d : RepoData) (r : RepoInfo) (today : String) : RepoInfo :=
  let existing := { r with
    stars := d.stargazers_count.getD r.stars
    updated_at := strTakeChars d.updated_at 10 }
  let conf_result := env.conference_detect (env.get_readme d.full_name) existing.description
  { existing with
    conference := conf_result.conference
    conference_year := conf_result.year
    arxiv_id := conf_result.arxiv_id
    conference_details := conf_result.details
    last_checked := today }

/-- The state produced by delta Case A (store update plus promotion
re-attempt). -/
def caseAResult (env : DetectEnv) (st : TrackerState) (d : RepoData) (r : RepoInfo)
    (today now : String) : TrackerState :=
  if RUQueueManager.should_queue st.ru_queue (caseARefreshed env d r today) then
    { st with
      repos := mapInsert st.repos d.full_name
        (RUQueueManager.add_candidate st.ru_queue (caseARefreshed env d r today) "auto" now).repo
      ru_queue :=
        (RUQueueManager.add_candidate st.ru_queue (caseARefreshed env d r today) "auto" now).queue }
  else
    { st with
      repos := mapInsert st.repos d.full_name (caseARefreshed env d r today)
      ru_queue := st.ru_queue }


/-- All `full_name`s returned by the two passes over all queries, in
processing order. -/
def discoveredNames (env : DetectEnv) (min_stars max_results : Nat) (year_filter : String)
    (queries : List String) : List String :=
  (queries.map (fun query =>
    ((env.search_repos query min_stars (year_filter ++ "-01-01") max_results "stars" ++
      env.search_repos query min_stars (year_filter ++ "-01-01") max_results "updated").map
        RepoData.full_name))).flatten

def emptyTrackerState : TrackerState := { repos := [], ru_queue := [] }

def goodDict : RepoDict :=
  { name := "one", full_name := "good/one", stars := 3, url := "https://g", description := "d",
    created_at := "2024-01-01", updated_at := "2024-01-02", status := "has_weights",
    last_checked := "2024-01-03", status_changed_date := "2024-01-02",
    previous_status := some "no_weights", weight_status := "HF", weight_confidence := "high",
    weight_details := [], conference := none, conference_year := none,
    arxiv_id := some "1234.5678", conference_details := [], topics := [],
    coming_soon_detected := false, coming_soon_details := [], ru_candidate := false }

/-- A record dictionary whose `status` value is not a member of the
`RepoState` enum: `RepoState("weights_ready")` raises `ValueError`. -/
def badDict : RepoDict :=
  { name := "two", full_name := "bad/two", stars := 1, url := "https://b", description := "d",
    created_at := "2024-01-01", updated_at := "2024-01-02", status := "weights_ready",
    last_checked := "2024-01-03", status_changed_date := "2024-01-02",
    previous_status := none, weight_status := "None", weight_confidence := "none",
    weight_details := [], conference := none, conference_year := none, arxiv_id := none,
    conference_details := [], topics := [], coming_soon_detected := false,
    coming_soon_details := [], ru_candidate := false }

def badHistory : HistoryData := { repos := [goodDict, badDict] }

/-! ## Theorems -/

theorem RepoState.value_ne_empty (s : RepoState) : s.value ≠ "" := by
  cases s <;> decide

theorem repoStateOfValue?_value (s : RepoState) : repoStateOfValue? s.value = some s := by
  cases s <;> decide

/-- C1 -/
theorem update_status_transition_bookkeeping (r : RepoInfo) (new_status : RepoState)
    (today : String) :
    (r.update_status new_status today).last_checked = today
  ∧ (r.update_status new_status today).status = new_status
  ∧ (r.update_status new_status today).status_changed_date =
      (if r.status = new_status then r.status_changed_date else today)
  ∧ (r.update_status new_status today).previous_status =
      (if r.status = new_status then r.previous_status else some r.status)
  ∧ (r.update_status new_status today).previous_status.isSome =
      (r.previous_status.isSome || decide (r.status ≠ new_status)) := by
  by_cases h : r.status = new_status <;>
    simp [RepoInfo.update_status, h]

/-- C5 -/
theorem is_fresh_release_characterization (nowDay : Int) (r : RepoInfo) (W : Int) :
    (r.is_fresh_release nowDay W = true ↔
      r.status = RepoState.HAS_WEIGHTS ∧ r.previous_status ≠ none ∧
        ∃ c, parseIsoDate r.status_changed_date = some c ∧ nowDay - c ≤ W)
  ∧ (r.previous_status = none → r.is_fresh_release nowDay W = false)
  ∧ (r.status = RepoState.HAS_WEIGHTS → r.previous_status ≠ none →
      parseIsoDate r.status_changed_date = some (nowDay - 7) →
      r.is_fresh_release nowDay 7 = true ∧ r.is_fresh_release nowDay 6 = false) := by
  refine ⟨?_, ?_, ?_⟩
  · by_cases h1 : r.status = RepoState.HAS_WEIGHTS
    · by_cases h2 : r.previous_status = none
      · simp [RepoInfo.is_fresh_release, h1, h2]
      · cases hp : parseIsoDate r.status_changed_date with
        | none => simp [RepoInfo.is_fresh_release, h1, h2, hp]
        | some c => simp [RepoInfo.is_fresh_release, h1, h2, hp]
    · simp [RepoInfo.is_fresh_release, h1]
  · intro h2
    simp [RepoInfo.is_fresh_release, h2]
  · intro h1 h2 hp
    constructor <;> simp [RepoInfo.is_fresh_release, h1, h2, hp]

/-- C5 witness -/
theorem is_fresh_release_boundary_witness :
    freshSampleRepo.is_fresh_release 738892 7 = true ∧
    freshSampleRepo.is_fresh_release 738892 6 = false :=
  (is_fresh_release_characterization 738892 freshSampleRepo 0).2.2
    (by decide) (by decide) (by decide)

/-- C10 -/
theorem to_dict_from_dict_roundtrip (r : RepoInfo) (today : String)
    (h1 : r.last_checked ≠ "") (h2 : r.status_changed_date ≠ "") :
    RepoInfo.from_dict r.to_dict today = .ok r := by
  cases hp : r.previous_status with
  | none =>
    simp only [RepoInfo.to_dict, RepoInfo.from_dict, RepoInfo.post_init,
      RepoState.value_ne_empty, repoStateOfValue?_value, h1, h2, hp]
    simp [RepoState.value_ne_empty, h1, h2]
    rw [← hp]
  | some st =>
    simp only [RepoInfo.to_dict, RepoInfo.from_dict, RepoInfo.post_init,
      RepoState.value_ne_empty, repoStateOfValue?_value, h1, h2, hp]
    simp [RepoState.value_ne_empty, repoStateOfValue?_value, h1, h2]
    rw [← hp]

/-- C10 witness -/
theorem to_dict_from_dict_roundtrip_witness :
    freshSampleRepo.last_checked ≠ "" ∧ freshSampleRepo.status_changed_date ≠ "" ∧
    RepoInfo.from_dict freshSampleRepo.to_dict "2024-06-01" = .ok freshSampleRepo :=
  ⟨by decide, by decide, to_dict_from_dict_roundtrip freshSampleRepo "2024-06-01" (by decide) (by decide)⟩

theorem mapInsert_of_mapLookup_none {m : List (String × α)} {k : String}
    (h : mapLookup m k = none) (v : α) : mapInsert m k v = m ++ [(k, v)] := by
  simp [mapInsert, h]

theorem mapLookup_append_single_self {m : List (String × α)} {k : String}
    (h : mapLookup m k = none) (v : α) : mapLookup (m ++ [(k, v)]) k = some v := by
  induction m with
  | nil => simp [mapLookup]
  | cons p rest ih =>
    by_cases hp : p.1 = k
    · simp [mapLookup, hp] at h
    · simp only [mapLookup, hp, if_false, List.cons_append] at h ⊢
      exact ih h

theorem filter_key_eq_nil {m : List (String × α)} {k : String}
    (h : mapLookup m k = none) : m.filter (fun p => p.1 == k) = [] := by
  induction m with
  | nil => rfl
  | cons p rest ih =>
    by_cases hp : p.1 = k
    · simp [mapLookup, hp] at h
    · simp only [mapLookup, hp, if_false] at h
      have hb : (p.1 == k) = false := by simpa using hp
      simp [List.filter_cons, hb, ih h]

theorem mapLookup_map_modify (q : List (String × α)) (k : String) (g : α → α) :
    mapLookup (q.map (fun p => if p.1 = k then (p.1, g p.2) else p)) k =
      (mapLookup q k).map g := by
  induction q with
  | nil => rfl
  | cons p rest ih =>
    by_cases hp : p.1 = k
    · simp [mapLookup, hp]
    · simp only [List.map_cons, hp, if_false, mapLookup]
      exact ih

theorem mapLookup_map_modify_ne (q : List (String × α)) (k : String) (g : α → α)
    {k2 : String} (h : k2 ≠ k) :
    mapLookup (q.map (fun p => if p.1 = k then (p.1, g p.2) else p)) k2 =
      mapLookup q k2 := by
  induction q with
  | nil => rfl
  | cons p rest ih =>
    by_cases hp : p.1 = k
    · have hne : ¬ k = k2 := fun hc => h hc.symm
      simp only [List.map_cons, hp, if_true, mapLookup]
      rw [if_neg hne, if_neg hne]
      exact ih
    · simp only [List.map_cons, hp, if_false, mapLookup]
      by_cases hk2 : p.1 = k2
      · rw [if_pos hk2, if_pos hk2]
      · rw [if_neg hk2, if_neg hk2]
        exact ih

/-- C4: an automatic promotion creates a pending entry and returns true
exactly when the record has weights, a non-empty arXiv id, and no existing
queue entry; an existing entry of any status is left untouched; promoting
twice yields exactly one entry. -/
theorem add_candidate_auto_idempotent (q : RUQueue) (r : RepoInfo) (now now2 : String) :
    ((RUQueueManager.add_candidate q r "auto" now).added = true ↔
      (r.status = RepoState.HAS_WEIGHTS ∧ optStrTruthy r.arxiv_id = true ∧
        mapLookup q r.full_name = none))
  ∧ ((mapLookup q r.full_name).isSome →
      RUQueueManager.add_candidate q r "auto" now = ⟨q, r, false⟩)
  ∧ ((RUQueueManager.add_candidate q r "auto" now).added = true →
      mapLookup (RUQueueManager.add_candidate q r "auto" now).queue r.full_name =
        some { url := r.url, full_name := r.full_name, arxiv_id := r.arxiv_id.getD "",
               added_at := now, source := "auto", status := "pending" }
      ∧ RUQueueManager.add_candidate (RUQueueManager.add_candidate q r "auto" now).queue
          (RUQueueManager.add_candidate q r "auto" now).repo "auto" now2 =
          ⟨(RUQueueManager.add_candidate q r "auto" now).queue,
           (RUQueueManager.add_candidate q r "auto" now).repo, false⟩
      ∧ ((RUQueueManager.add_candidate q r "auto" now).queue.filter
            (fun p => p.1 == r.full_name)).length = 1) := by
  have hiff : (RUQueueManager.add_candidate q r "auto" now).added = true ↔
      (r.status = RepoState.HAS_WEIGHTS ∧ optStrTruthy r.arxiv_id = true ∧
        mapLookup q r.full_name = none) := by
    by_cases h1 : r.status = RepoState.HAS_WEIGHTS
    · by_cases h2 : optStrTruthy r.arxiv_id = true
      · cases hl : mapLookup q r.full_name with
        | none =>
          simp [RUQueueManager.add_candidate, RUQueueManager.should_queue, h1, h2, hl]
        | some e =>
          by_cases he : e.status = "completed" ∨ e.status = "processing" <;>
            simp [RUQueueManager.add_candidate, RUQueueManager.should_queue, h1, h2, hl, he]
      · simp [RUQueueManager.add_candidate, RUQueueManager.should_queue, h1, h2]
    · simp [RUQueueManager.add_candidate, RUQueueManager.should_queue, h1]
  refine ⟨hiff, ?_, ?_⟩
  · intro hsome
    cases hl : mapLookup q r.full_name with
    | none => rw [hl] at hsome; simp at hsome
    | some e =>
      by_cases hsq : RUQueueManager.should_queue q r = true <;>
        simp [RUQueueManager.add_candidate, hsq, hl]
  · intro hadd
    obtain ⟨h1, h2, hl⟩ := hiff.mp hadd
    have hq : RUQueueManager.add_candidate q r "auto" now =
        ⟨q ++ [(r.full_name,
              { url := r.url, full_name := r.full_name, arxiv_id := r.arxiv_id.getD "",
                added_at := now, source := "auto", status := "pending" })],
         { r with ru_candidate := true }, true⟩ := by
      simp [RUQueueManager.add_candidate, RUQueueManager.should_queue, h1, h2, hl,
        mapInsert_of_mapLookup_none hl]
    rw [hq]
    refine ⟨mapLookup_append_single_self hl _, ?_, ?_⟩
    · have hl2 : mapLookup
          (q ++ [(r.full_name,
            { url := r.url, full_name := r.full_name, arxiv_id := r.arxiv_id.getD "",
              added_at := now, source := "auto", status := "pending", notes := "" })])
          r.full_name =
          some { url := r.url, full_name := r.full_name, arxiv_id := r.arxiv_id.getD "",
                 added_at := now, source := "auto", status := "pending", notes := "" } :=
        mapLookup_append_single_self hl _
      simp [RUQueueManager.add_candidate, RUQueueManager.should_queue, h1, h2, hl2]
    · rw [List.filter_append, filter_key_eq_nil hl]
      simp

/-- C4 witness -/
theorem add_candidate_auto_idempotent_witness :
    (mapLookup sampleQueue "u/r").isSome ∧
    RUQueueManager.add_candidate sampleQueue sampleEligibleRepo "auto" "t1" =
      ⟨sampleQueue, sampleEligibleRepo, false⟩ :=
  ⟨by decide,
   (add_candidate_auto_idempotent sampleQueue sampleEligibleRepo "t1" "t2").2.1 (by decide)⟩

/-- C9 counterexample: `update_status` with empty notes does not overwrite
the stored notes, refuting unconditional overwriting of notes. -/
theorem queue_update_status_empty_notes_counterexample :
    (mapLookup (RUQueueManager.update_status sampleQueue "u/r" "completed" "") "u/r").map
        (fun c => c.notes) = some "old"
    ∧ ("old" : String) ≠ "" := by
  constructor
  · decide
  · decide

/-- C9 amended: status is always overwritten for a present identity; notes
are overwritten only when the given notes string is non-empty; absent
identities and other keys are untouched. -/
theorem queue_update_status_conditional_overwrite (q : RUQueue) (k s n : String) :
    (∀ e, mapLookup q k = some e →
      mapLookup (RUQueueManager.update_status q k s n) k =
        some { e with status := s, notes := if n ≠ "" then n else e.notes })
  ∧ (mapLookup q k = none → RUQueueManager.update_status q k s n = q)
  ∧ (∀ k2, k2 ≠ k → mapLookup (RUQueueManager.update_status q k s n) k2 = mapLookup q k2) := by
  refine ⟨?_, ?_, ?_⟩
  · intro e he
    have hsome : (mapLookup q k).isSome := by rw [he]; rfl
    unfold RUQueueManager.update_status
    rw [if_pos hsome, mapLookup_map_modify q k
      (fun c => { c with status := s, notes := if n ≠ "" then n else c.notes }), he]
    rfl
  · intro hnone
    unfold RUQueueManager.update_status
    rw [hnone]
    rfl
  · intro k2 hk2
    unfold RUQueueManager.update_status
    by_cases hsome : (mapLookup q k).isSome
    · rw [if_pos hsome]
      exact mapLookup_map_modify_ne q k
        (fun c => { c with status := s, notes := if n ≠ "" then n else c.notes }) hk2
    · rw [if_neg hsome]

/-- C9 witness -/
theorem queue_update_status_conditional_overwrite_witness :
    mapLookup (RUQueueManager.update_status sampleQueue "u/r" "done" "n2") "u/r" =
      some { url := "https://x", full_name := "u/r", arxiv_id := "1111.2222",
             added_at := "t0", source := "auto", status := "done", notes := "n2" } := by
  have h := (queue_update_status_conditional_overwrite sampleQueue "u/r" "done" "n2").1
    sampleCandidate (by decide)
  simpa [sampleCandidate] using h


theorem update_status_fields (r : RepoInfo) (ns : RepoState) (today : String) :
    (r.update_status ns today).status = ns ∧
    (r.update_status ns today).last_checked = today ∧
    (r.update_status ns today).status_changed_date =
      (if r.status = ns then r.status_changed_date else today) ∧
    (r.update_status ns today).previous_status =
      (if r.status = ns then r.previous_status else some r.status) := by
  by_cases h : r.status = ns <;> simp [RepoInfo.update_status, h]

theorem add_candidate_repo_preserves (q : RUQueue) (r : RepoInfo) (s now : String) :
    (RUQueueManager.add_candidate q r s now).repo.status = r.status ∧
    (RUQueueManager.add_candidate q r s now).repo.previous_status = r.previous_status ∧
    (RUQueueManager.add_candidate q r s now).repo.status_changed_date = r.status_changed_date ∧
    (RUQueueManager.add_candidate q r s now).repo.last_checked = r.last_checked := by
  unfold RUQueueManager.add_candidate
  split
  · exact ⟨rfl, rfl, rfl, rfl⟩
  · split
    · exact ⟨rfl, rfl, rfl, rfl⟩
    · split
      · exact ⟨rfl, rfl, rfl, rfl⟩
      · exact ⟨rfl, rfl, rfl, rfl⟩

theorem queue_attempt_fst_fields (q : RUQueue) (u : RepoInfo) (now : String) :
    (if RUQueueManager.should_queue q u then
       ((RUQueueManager.add_candidate q u "auto" now).repo,
        (RUQueueManager.add_candidate q u "auto" now).queue)
     else (u, q)).1.status = u.status ∧
    (if RUQueueManager.should_queue q u then
       ((RUQueueManager.add_candidate q u "auto" now).repo,
        (RUQueueManager.add_candidate q u "auto" now).queue)
     else (u, q)).1.previous_status = u.previous_status ∧
    (if RUQueueManager.should_queue q u then
       ((RUQueueManager.add_candidate q u "auto" now).repo,
        (RUQueueManager.add_candidate q u "auto" now).queue)
     else (u, q)).1.status_changed_date = u.status_changed_date ∧
    (if RUQueueManager.should_queue q u then
       ((RUQueueManager.add_candidate q u "auto" now).repo,
        (RUQueueManager.add_candidate q u "auto" now).queue)
     else (u, q)).1.last_checked = u.last_checked := by
  by_cases h : RUQueueManager.should_queue q u = true
  · rw [if_pos h]
    exact ⟨(add_candidate_repo_preserves q u "auto" now).1,
      (add_candidate_repo_preserves q u "auto" now).2.1,
      (add_candidate_repo_preserves q u "auto" now).2.2.1,
      (add_candidate_repo_preserves q u "auto" now).2.2.2⟩
  · rw [if_neg h]
    exact ⟨rfl, rfl, rfl, rfl⟩

/-- C2: in delta cases B, C and D (all of which call
`_update_repo_detection`), the recomputed state is `HAS_WEIGHTS` iff the
weight classifier returns a label other than the `"None"` sentinel, else
`COMING_SOON` iff the promise classifier fired, else `NO_WEIGHTS`; and the
state is applied through `update_status`, so the `status_changed_date` and
`previous_status` bookkeeping holds. -/
theorem update_repo_detection_state_computation (env : DetectEnv) (r : RepoInfo)
    (readme : String) (q : RUQueue) (today now : String) :
    (PaperTracker.update_repo_detection env r readme q today now).1.status =
      (if (env.weight_detect readme).status ≠ "None" then RepoState.HAS_WEIGHTS
       else if (env.coming_soon_detect readme).detected then RepoState.COMING_SOON
       else RepoState.NO_WEIGHTS)
  ∧ (PaperTracker.update_repo_detection env r readme q today now).1.last_checked = today
  ∧ (PaperTracker.update_repo_detection env r readme q today now).1.status_changed_date =
      (if r.status =
          (if (env.weight_detect readme).status ≠ "None" then RepoState.HAS_WEIGHTS
           else if (env.coming_soon_detect readme).detected then RepoState.COMING_SOON
           else RepoState.NO_WEIGHTS)
       then r.status_changed_date else today)
  ∧ (PaperTracker.update_repo_detection env r readme q today now).1.previous_status =
      (if r.status =
          (if (env.weight_detect readme).status ≠ "None" then RepoState.HAS_WEIGHTS
           else if (env.coming_soon_detect readme).detected then RepoState.COMING_SOON
           else RepoState.NO_WEIGHTS)
       then r.previous_status else some r.status) := by
  simp only [PaperTracker.update_repo_detection]
  refine ⟨?_, ?_, ?_, ?_⟩
  · rw [(queue_attempt_fst_fields _ _ _).1, (update_status_fields _ _ _).1]
  · rw [(queue_attempt_fst_fields _ _ _).2.2.2, (update_status_fields _ _ _).2.1]
  · rw [(queue_attempt_fst_fields _ _ _).2.2.1, (update_status_fields _ _ _).2.2.1]
  · rw [(queue_attempt_fst_fields _ _ _).2.1, (update_status_fields _ _ _).2.2.2]

/-- C3 counterexample: an existing record (`u/r`, `HAS_WEIGHTS`) is
re-discovered under a filter that rejects it; the claim requires delta
Case A (relevance not re-evaluated, `lastCheckedDate` set to today), but
the code re-evaluates the filter and leaves the whole state untouched. -/
theorem process_gating_counterexample :
    PaperTracker.process_repo_with_delta emptyEnv nullFilter sampleStableState
      sampleRepoData "2024-06-01" "t1" = sampleStableState
  ∧ (mapLookup sampleStableState.repos "u/r").map (fun r => r.last_checked) =
      some "2024-01-08"
  ∧ ("2024-01-08" : String) ≠ "2024-06-01" := by
  refine ⟨by decide, by decide, by decide⟩

/-- C3 amended: relevance gating is applied to every discovered
repository, existing or not; a repository failing the gate is skipped
entirely (existing record untouched), and for repositories passing the
gate the applicable delta case runs with no further filter evaluation
(`process_gated` takes no filter). -/
theorem process_relevance_gate_applies_to_all (env : DetectEnv) (f : RelevanceFilter)
    (st : TrackerState) (d : RepoData) (today now : String) :
    PaperTracker.process_repo_with_delta env f st d today now =
      (if f.is_excluded d = true ∨ f.is_relevant d = false then st
       else PaperTracker.process_gated env st d today now) := by
  by_cases h1 : f.is_excluded d = true
  · simp [PaperTracker.process_repo_with_delta, h1]
  · by_cases h2 : f.is_relevant d = true
    · simp [PaperTracker.process_repo_with_delta, PaperTracker.process_gated, h1, h2]
    · simp [PaperTracker.process_repo_with_delta, h1, h2]


theorem mapLookup_map_replace {m : List (String × α)} {k : String} (v : α)
    (h : (mapLookup m k).isSome) :
    mapLookup (m.map (fun p => if p.1 = k then (k, v) else p)) k = some v := by
  induction m with
  | nil => simp [mapLookup] at h
  | cons p rest ih =>
    by_cases hp : p.1 = k
    · simp [mapLookup, hp]
    · have hhd : (if p.1 = k then (k, v) else p) = p := if_neg hp
      rw [List.map_cons, hhd]
      simp only [mapLookup, hp, if_false] at h ⊢
      exact ih h

theorem mapLookup_mapInsert_self (m : List (String × α)) (k : String) (v : α) :
    mapLookup (mapInsert m k v) k = some v := by
  unfold mapInsert
  by_cases h : (mapLookup m k).isSome
  · rw [if_pos h]
    exact mapLookup_map_replace v h
  · rw [if_neg h]
    exact mapLookup_append_single_self (Option.not_isSome_iff_eq_none.mp h) v

theorem add_candidate_repo_cases (q : RUQueue) (r : RepoInfo) (s now : String) :
    (RUQueueManager.add_candidate q r s now).repo = r ∨
    (RUQueueManager.add_candidate q r s now).repo = { r with ru_candidate := true } := by
  unfold RUQueueManager.add_candidate
  split
  · exact .inl rfl
  · split
    · exact .inl rfl
    · split
      · exact .inl rfl
      · exact .inr rfl

theorem add_candidate_of_should_queue (q : RUQueue) (r : RepoInfo) (now : String)
    (hq : RUQueueManager.should_queue q r = true) (hl : mapLookup q r.full_name = none) :
    RUQueueManager.add_candidate q r "auto" now =
      ⟨q ++ [(r.full_name,
        { url := r.url, full_name := r.full_name, arxiv_id := r.arxiv_id.getD "",
          added_at := now, source := "auto", status := "pending" })],
       { r with ru_candidate := true }, true⟩ := by
  simp [RUQueueManager.add_candidate, hq, hl, mapInsert_of_mapLookup_none hl]

theorem state_of_pair_if {c : Prop} [Decidable c] (st : TrackerState)
    (m : List (String × RepoInfo)) (k : String) (a b : RUQueue × RepoInfo) :
    ({ st with
        repos := mapInsert m k (if c then a else b).2
        ru_queue := (if c then a else b).1 } : TrackerState) =
      (if c then
        { st with
          repos := mapInsert m k a.2
          ru_queue := a.1 }
       else
        { st with
          repos := mapInsert m k b.2
          ru_queue := b.1 }) := by
  by_cases h : c <;> simp [h]

theorem process_case_A_eq (env : DetectEnv) (f : RelevanceFilter) (st : TrackerState)
    (d : RepoData) (r : RepoInfo) (today now : String)
    (hex : f.is_excluded d = false) (hrel : f.is_relevant d = true)
    (hlook : mapLookup st.repos d.full_name = some r)
    (hst : r.status = RepoState.HAS_WEIGHTS) :
    PaperTracker.process_repo_with_delta env f st d today now =
      caseAResult env st d r today now := by
  simp only [PaperTracker.process_repo_with_delta, caseAResult, caseARefreshed, hex, hrel,
    hlook, hst, Bool.false_eq_true, eq_self_iff_true, not_true, if_true, if_false]
  exact state_of_pair_if st st.repos d.full_name _ _

theorem caseAResult_stored (env : DetectEnv) (st : TrackerState) (d : RepoData)
    (r : RepoInfo) (today now : String) :
    ∃ R, (caseAResult env st d r today now).repos = mapInsert st.repos d.full_name R
      ∧ R.status = r.status
      ∧ R.previous_status = r.previous_status
      ∧ R.status_changed_date = r.status_changed_date
      ∧ R.last_checked = today
      ∧ R.weight_status = r.weight_status
      ∧ R.weight_confidence = r.weight_confidence
      ∧ R.weight_details = r.weight_details
      ∧ R.coming_soon_detected = r.coming_soon_detected
      ∧ R.coming_soon_details = r.coming_soon_details
      ∧ R.conference = (env.conference_detect (env.get_readme d.full_name) r.description).conference
      ∧ R.arxiv_id = (env.conference_detect (env.get_readme d.full_name) r.description).arxiv_id := by
  unfold caseAResult
  by_cases hq : RUQueueManager.should_queue st.ru_queue (caseARefreshed env d r today) = true
  · rw [if_pos hq]
    rcases add_candidate_repo_cases st.ru_queue (caseARefreshed env d r today) "auto" now with
      hc | hc <;> rw [hc] <;>
      exact ⟨_, rfl, rfl, rfl, rfl, rfl, rfl, rfl, rfl, rfl, rfl, rfl, rfl⟩
  · rw [if_neg hq]
    exact ⟨caseARefreshed env d r today, rfl, rfl, rfl, rfl, rfl, rfl, rfl, rfl, rfl, rfl, rfl, rfl⟩

/-- C7: delta Case A re-runs only the venue classifier, leaves `status`,
`previous_status`, `status_changed_date` and the weight/promise fields
unchanged, sets `last_checked` to today, re-attempts queue promotion, is
independent of the weight and promise classifiers, and a second run again
changes nothing but `last_checked`. -/
theorem process_case_A_stable_frame (env : DetectEnv) (f : RelevanceFilter)
    (st : TrackerState) (d : RepoData) (r : RepoInfo) (today now today2 now2 : String)
    (hex : f.is_excluded d = false) (hrel : f.is_relevant d = true)
    (hlook : mapLookup st.repos d.full_name = some r)
    (hst : r.status = RepoState.HAS_WEIGHTS) :
    (∃ r2,
      mapLookup (PaperTracker.process_repo_with_delta env f st d today now).repos
        d.full_name = some r2
      ∧ r2.status = r.status
      ∧ r2.previous_status = r.previous_status
      ∧ r2.status_changed_date = r.status_changed_date
      ∧ r2.last_checked = today
      ∧ r2.weight_status = r.weight_status
      ∧ r2.weight_confidence = r.weight_confidence
      ∧ r2.weight_details = r.weight_details
      ∧ r2.coming_soon_detected = r.coming_soon_detected
      ∧ r2.coming_soon_details = r.coming_soon_details
      ∧ r2.conference = (env.conference_detect (env.get_readme d.full_name) r.description).conference
      ∧ r2.arxiv_id = (env.conference_detect (env.get_readme d.full_name) r.description).arxiv_id
      ∧ (RUQueueManager.should_queue st.ru_queue r2 = true →
         mapLookup st.ru_queue r2.full_name = none →
         mapLookup (PaperTracker.process_repo_with_delta env f st d today now).ru_queue
             r2.full_name =
           some { url := r2.url, full_name := r2.full_name, arxiv_id := r2.arxiv_id.getD "",
                  added_at := now, source := "auto", status := "pending" }))
  ∧ (∀ env2 : DetectEnv, env2.get_readme = env.get_readme →
      env2.conference_detect = env.conference_detect →
      PaperTracker.process_repo_with_delta env2 f st d today now =
        PaperTracker.process_repo_with_delta env f st d today now)
  ∧ (∃ r3,
      mapLookup (PaperTracker.process_repo_with_delta env f
          (PaperTracker.process_repo_with_delta env f st d today now) d today2 now2).repos
        d.full_name = some r3
      ∧ r3.status = r.status
      ∧ r3.previous_status = r.previous_status
      ∧ r3.status_changed_date = r.status_changed_date
      ∧ r3.last_checked = today2) := by
  have heq := process_case_A_eq env f st d r today now hex hrel hlook hst
  refine ⟨?_, ?_, ?_⟩
  · rw [heq]
    unfold caseAResult
    by_cases hq : RUQueueManager.should_queue st.ru_queue (caseARefreshed env d r today) = true
    · rw [if_pos hq]
      rcases add_candidate_repo_cases st.ru_queue (caseARefreshed env d r today) "auto" now with
        hc | hc <;> rw [hc] <;>
        refine ⟨_, mapLookup_mapInsert_self _ _ _, rfl, rfl, rfl, rfl, rfl, rfl, rfl, rfl,
          rfl, rfl, rfl, ?_⟩ <;>
        · intro hq2 hl
          have hadd := add_candidate_of_should_queue st.ru_queue
            (caseARefreshed env d r today) now hq hl
          rw [hadd]
          exact mapLookup_append_single_self hl _
    · rw [if_neg hq]
      refine ⟨caseARefreshed env d r today, mapLookup_mapInsert_self _ _ _, rfl, rfl, rfl,
        rfl, rfl, rfl, rfl, rfl, rfl, rfl, rfl, ?_⟩
      intro hq2 hl
      exact absurd hq2 hq
  · intro env2 h1 h2
    rw [process_case_A_eq env2 f st d r today now hex hrel hlook hst, heq]
    unfold caseAResult caseARefreshed
    rw [h1, h2]
  · obtain ⟨R, hrep, hR1, hR2, hR3, hR4, _⟩ := caseAResult_stored env st d r today now
    have hlook2 : mapLookup (caseAResult env st d r today now).repos d.full_name = some R := by
      rw [hrep]
      exact mapLookup_mapInsert_self _ _ _
    have hst2 : R.status = RepoState.HAS_WEIGHTS := hR1.trans hst
    have heq2 := process_case_A_eq env f (caseAResult env st d r today now) d R today2 now2
      hex hrel hlook2 hst2
    rw [heq, heq2]
    obtain ⟨R3, hrep3, hS1, hS2, hS3, hS4, _⟩ :=
      caseAResult_stored env (caseAResult env st d r today now) d R today2 now2
    refine ⟨R3, ?_, hS1.trans hR1, hS2.trans hR2, hS3.trans hR3, hS4⟩
    rw [hrep3]
    exact mapLookup_mapInsert_self _ _ _

/-- C7 witness -/
theorem process_case_A_stable_frame_witness :
    RelevanceFilter.is_excluded passFilter sampleRepoData = false ∧
    RelevanceFilter.is_relevant passFilter sampleRepoData = true ∧
    mapLookup sampleStableState.repos "u/r" = some sampleEligibleRepo ∧
    sampleEligibleRepo.status = RepoState.HAS_WEIGHTS ∧
    ∃ r2, mapLookup (PaperTracker.process_repo_with_delta emptyEnv passFilter sampleStableState
        sampleRepoData "2024-06-10" "t1").repos "u/r" = some r2
      ∧ r2.status = sampleEligibleRepo.status ∧ r2.last_checked = "2024-06-10" := by
  refine ⟨by decide, by decide, by decide, by decide, ?_⟩
  obtain ⟨⟨r2, hl, hs, _, _, hlc, _⟩, _, _⟩ :=
    process_case_A_stable_frame emptyEnv passFilter sampleStableState sampleRepoData
      sampleEligibleRepo "2024-06-10" "t1" "2024-06-11" "t2"
      (by decide) (by decide) (by decide) (by decide)
  exact ⟨r2, hl, hs, hlc⟩


theorem search_process_results_seen_trace (env : DetectEnv) (f : RelevanceFilter)
    (today now : String) (results : List RepoData) :
    ∀ (st : TrackerState) (seen trace : List String),
      (PaperTracker.search_process_results env f today now st seen trace results).2.1 =
        seen ++ searchTraceNames seen (results.map RepoData.full_name) ∧
      (PaperTracker.search_process_results env f today now st seen trace results).2.2 =
        trace ++ searchTraceNames seen (results.map RepoData.full_name) := by
  induction results with
  | nil =>
    intro st seen trace
    simp [PaperTracker.search_process_results, searchTraceNames]
  | cons d rest ih =>
    intro st seen trace
    by_cases h : d.full_name = "" ∨ d.full_name ∈ seen
    · simp only [PaperTracker.search_process_results, List.map_cons, searchTraceNames,
        if_pos h]
      exact ih st seen trace
    · simp only [PaperTracker.search_process_results, List.map_cons, searchTraceNames,
        if_neg h]
      obtain ⟨ih1, ih2⟩ := ih
        (PaperTracker.process_repo_with_delta env f st d today now)
        (seen ++ [d.full_name]) (trace ++ [d.full_name])
      constructor
      · rw [ih1]
        simp
      · rw [ih2]
        simp

theorem searchTraceNames_append (l1 l2 seen : List String) :
    searchTraceNames seen (l1 ++ l2) =
      searchTraceNames seen l1 ++
        searchTraceNames (seen ++ searchTraceNames seen l1) l2 := by
  induction l1 generalizing seen with
  | nil => simp [searchTraceNames]
  | cons n rest ih =>
    by_cases h : n = "" ∨ n ∈ seen
    · simp only [List.cons_append, searchTraceNames, if_pos h, List.append_eq]
      exact ih seen
    · simp only [List.cons_append, searchTraceNames, if_neg h, List.append_eq]
      rw [ih (seen ++ [n])]
      simp

theorem discoveredNames_cons (env : DetectEnv) (min_stars max_results : Nat)
    (year_filter : String) (query : String) (rest : List String) :
    discoveredNames env min_stars max_results year_filter (query :: rest) =
      ((env.search_repos query min_stars (year_filter ++ "-01-01") max_results "stars" ++
        env.search_repos query min_stars (year_filter ++ "-01-01") max_results "updated").map
          RepoData.full_name) ++
        discoveredNames env min_stars max_results year_filter rest := by
  simp [discoveredNames]

theorem search_queries_seen_trace (env : DetectEnv) (f : RelevanceFilter)
    (min_stars max_results : Nat) (year_filter today now : String) (queries : List String) :
    ∀ (st : TrackerState) (seen trace : List String),
      (PaperTracker.search_queries env f min_stars max_results year_filter today now
          st seen trace queries).2.1 =
        seen ++ searchTraceNames seen (discoveredNames env min_stars max_results year_filter queries) ∧
      (PaperTracker.search_queries env f min_stars max_results year_filter today now
          st seen trace queries).2.2 =
        trace ++ searchTraceNames seen (discoveredNames env min_stars max_results year_filter queries) := by
  induction queries with
  | nil =>
    intro st seen trace
    simp [PaperTracker.search_queries, discoveredNames, searchTraceNames]
  | cons query rest ih =>
    intro st seen trace
    simp only [PaperTracker.search_queries]
    obtain ⟨hs, ht⟩ := search_process_results_seen_trace env f today now
      (env.search_repos query min_stars (year_filter ++ "-01-01") max_results "stars" ++
       env.search_repos query min_stars (year_filter ++ "-01-01") max_results "updated")
      st seen trace
    obtain ⟨ihs, iht⟩ := ih
      (PaperTracker.search_process_results env f today now st seen trace
        (env.search_repos query min_stars (year_filter ++ "-01-01") max_results "stars" ++
         env.search_repos query min_stars (year_filter ++ "-01-01") max_results "updated")).1
      (PaperTracker.search_process_results env f today now st seen trace
        (env.search_repos query min_stars (year_filter ++ "-01-01") max_results "stars" ++
         env.search_repos query min_stars (year_filter ++ "-01-01") max_results "updated")).2.1
      (PaperTracker.search_process_results env f today now st seen trace
        (env.search_repos query min_stars (year_filter ++ "-01-01") max_results "stars" ++
         env.search_repos query min_stars (year_filter ++ "-01-01") max_results "updated")).2.2
    rw [discoveredNames_cons, searchTraceNames_append]
    constructor
    · rw [ihs, hs]
      simp
    · rw [iht, ht, hs]
      simp

theorem count_searchTraceNames (x : String) (names : List String) :
    ∀ seen : List String,
      (searchTraceNames seen names).count x =
        (if x ≠ "" ∧ x ∈ names ∧ x ∉ seen then 1 else 0) := by
  induction names with
  | nil => intro seen; simp [searchTraceNames]
  | cons n rest ih =>
    intro seen
    by_cases h : n = "" ∨ n ∈ seen
    · rw [searchTraceNames, if_pos h, ih seen]
      by_cases hx : x = n
      · subst hx
        rcases h with h | h <;> simp [h]
      · simp [List.mem_cons, hx]
    · rw [searchTraceNames, if_neg h, List.count_cons, ih (seen ++ [n])]
      push_neg at h
      by_cases hx : x = n
      · subst hx
        simp [h.1, h.2, List.mem_append]
      · have hbeq : (n == x) = false := by
          simp [hx]
          exact fun hc => hx hc.symm
        rw [hbeq]
        simp only [List.mem_append, List.mem_cons, List.mem_singleton, if_false,
          Bool.false_eq_true, Nat.add_zero]
        by_cases h1 : x = ""
        · simp [h1]
        · by_cases h3 : x ∈ seen
          · simp [h1, h3, hx]
          · simp [h1, h3, hx]

/-- C6: within one run, the per-repository delta logic is invoked exactly
once for every non-empty identity appearing in any pass of any query, and
never for identities not discovered. -/
theorem search_dedup_processes_once (env : DetectEnv) (f : RelevanceFilter)
    (st : TrackerState) (queries : List String) (min_stars max_results : Nat)
    (year_filter today now : String) (x : String) :
    ((PaperTracker.search env f st queries min_stars max_results year_filter today now).2).count x =
      (if x ≠ "" ∧ x ∈ discoveredNames env min_stars max_results year_filter queries
       then 1 else 0) := by
  unfold PaperTracker.search
  rw [(search_queries_seen_trace env f min_stars max_results year_filter today now queries
    _ [] []).2]
  rw [List.nil_append, count_searchTraceNames]
  simp

/-- C8: the claim says a malformed snapshot degrades to an empty store
with a warning, never crashes, and leaves no partial records; the code
only catches `json.JSONDecodeError` and `KeyError`, so a snapshot record
with an invalid `status` enum value raises `ValueError` that propagates,
with the previously parsed records still loaded.  The missing-path and
undecodable-JSON branches do return an empty store without error. -/
theorem load_history_invalid_status_crash :
    (PaperTracker.load_history (.parsed badHistory) emptyTrackerState "2024-06-01" "t").2 =
      .error "weights_ready"
  ∧ (mapLookup (PaperTracker.load_history (.parsed badHistory) emptyTrackerState
        "2024-06-01" "t").1.repos "good/one").isSome = true
  ∧ PaperTracker.load_history .missing emptyTrackerState "2024-06-01" "t" =
      (emptyTrackerState, .ok false)
  ∧ PaperTracker.load_history .malformed_json emptyTrackerState "2024-06-01" "t" =
      (emptyTrackerState, .ok false) := by
  exact ⟨rfl, rfl, rfl, rfl⟩
